import Mathlib

/-!
Shallow embedding of the influxdb-firehose-nozzle aggregation-and-delivery
engine (package `influxdbclient`), together with theorems settling the
specification claims about it.

Modelling conventions:
* Go `map[metricKey]metricValue` is modelled as an association list with
  insert-or-replace update (`batchSet`); Go's unspecified map iteration
  order is fixed to the association-list order for rendering.
* Go machine integers (`int64`, `uint64`) are modelled as `Int`/`Nat`; no
  claim depends on wrap-around behaviour. `float64` values are modelled as
  `Rat`: the code only moves metric values around (no float arithmetic),
  and no claim depends on rounding of `float64(uint64)` conversions.
* The SHA-1 digest from `crypto/sha1` (external library code) is
  abstracted as a parameter `digest : String → List Nat` standing for the
  20-byte digest of a tag string; theorems that depend on its properties
  (fixed width, absence of collisions among the finitely many tags in
  play) take them as explicit hypotheses.
* `time.Now()` is threaded through as an explicit `now : Int` parameter
  (Unix seconds).
* The HTTP round trip of `PostMetrics` is modelled by passing the
  delivery outcome (`HttpResult`) as an argument; the request that the
  code builds is captured by `buildRequest`.
* Logging (`gosteno.Logger`) has no observable effect on the state and is
  omitted.
-/

namespace InfluxdbNozzle

/-- Byte-wise comparison of two Go strings, as used by `sort.Strings`.
For valid UTF-8, lexicographic byte order coincides with lexicographic
code-point order, which is the order on `String.data`. -/
def strLe (a b : String) : Bool := a.data ≤ b.data

/-- Insert a string into a sorted list of strings, keeping it sorted.
Together with `sortTags` this models Go's `sort.Strings`: a comparison
sort over a total antisymmetric order is uniquely determined by its
input, so insertion sort has exactly the behaviour of the Go sort. -/
def insertTag (t : String) : List String → List String
  | [] => [t]
  | x :: xs => if strLe t x then t :: x :: xs else x :: insertTag t xs

/-- Model of `sort.Strings(tags)` from `hashTags` (src/unnamed/part_001,
lines 276-284). Note that in Go this sorts the caller's slice in place;
`AddMetric`'s local `tags` slice is therefore sorted after `hashTags`
returns, which is reflected in the definition of `addMetric` below. -/
def sortTags : List String → List String
  | [] => []
  | x :: xs => insertTag x (sortTags xs)

/-- The `events.Envelope_EventType` protobuf enum from sonde-go.
`unset` is the zero value of the Go type: it is what a composite literal
such as `metricKey{name: ..., tagsHash: ...}` leaves in an omitted
`eventType` field. The named constants of the proto enum start at 2, so
`unset` is distinct from every named event type. -/
inductive EventType where
  | unset
  | httpStart
  | httpStop
  | httpStartStop
  | logMessage
  | valueMetric
  | counterEvent
  | errorEvent
  | containerMetric
deriving DecidableEq, Repr

/-- Payload of a `ValueMetric` envelope: `{name, value}`. -/
structure ValueMetricData where
  name : String
  value : ℚ
deriving DecidableEq, Repr

/-- Payload of a `CounterEvent` envelope: `{name, delta, total}`. -/
structure CounterEventData where
  name : String
  delta : ℕ
  total : ℕ
deriving DecidableEq, Repr

/-- An `events.Envelope`. The free-form `Tags` map is modelled as a list
of key-value pairs in one particular iteration order; Go's map iteration
order is unspecified, so properties about it quantify over permutations
of this list. Optional proto fields of string type are modelled as plain
strings, with `""` standing for both absent and empty (the Go getters
make these indistinguishable). -/
structure Envelope where
  eventType : EventType
  origin : String
  deployment : String
  job : String
  index : String
  ip : String
  tags : List (String × String)
  timestamp : ℤ
  valueMetric : Option ValueMetricData
  counterEvent : Option CounterEventData
deriving DecidableEq, Repr

/-- `getName` (src/unnamed/part_001, lines 236-245). The Go function
panics on any other event type; `AddMetric` only calls it after filtering
for `ValueMetric`/`CounterEvent`, so the default branch is unreachable
there and is modelled as `""`. A `nil` payload getter yields the zero
value, hence the `Option.getD` with an empty-name default. -/
def getName (e : Envelope) : String :=
  match e.eventType with
  | .valueMetric => e.origin ++ "." ++ ((e.valueMetric.map (·.name)).getD "")
  | .counterEvent => e.origin ++ "." ++ ((e.counterEvent.map (·.name)).getD "")
  | _ => ""

/-- `getValue` (src/unnamed/part_001, lines 247-256). As with `getName`,
the Go function panics on other event types and is only called behind
`AddMetric`'s filter; the default branch is modelled as `0`. -/
def getValue (e : Envelope) : ℚ :=
  match e.eventType with
  | .valueMetric => (e.valueMetric.map (·.value)).getD 0
  | .counterEvent => (((e.counterEvent.map (·.total)).getD 0 : ℕ) : ℚ)
  | _ => 0

/-- `appendTagIfNotEmpty` (src/unnamed/part_001, lines 269-274). -/
def appendTagIfNotEmpty (tags : List String) (key value : String) : List String :=
  if value ≠ "" then tags ++ [key ++ "=" ++ value] else tags

/-- `parseTags` (src/unnamed/part_001, lines 258-267): the fixed
envelope fields in order, then the free-form tags in iteration order. -/
def parseTags (e : Envelope) : List String :=
  let tags := appendTagIfNotEmpty [] "deployment" e.deployment
  let tags := appendTagIfNotEmpty tags "job" e.job
  let tags := appendTagIfNotEmpty tags "index" e.index
  let tags := appendTagIfNotEmpty tags "ip" e.ip
  e.tags.foldl (fun acc kv => appendTagIfNotEmpty acc kv.1 kv.2) tags

/-- `hashTags` (src/unnamed/part_001, lines 276-284): sort the tag
strings (in place, in Go), then concatenate the per-tag digests in
sorted order. `digest` abstracts `sha1.Sum` (external library code),
producing the byte list of the digest of one tag. -/
def hashTags (digest : String → List ℕ) (tags : List String) : List ℕ :=
  (sortTags tags).foldl (fun h t => h ++ digest t) []

/-- `metricKey` (src/unnamed/part_001, lines 34-38). -/
structure MetricKey where
  eventType : EventType
  name : String
  tagsHash : List ℕ
deriving DecidableEq, Repr

/-- `Point` (src/unnamed/part_001, lines 53-56). -/
structure Point where
  timestamp : ℤ
  value : ℚ
deriving DecidableEq, Repr

/-- `metricValue` (src/unnamed/part_001, lines 40-43). -/
structure MetricValue where
  tags : List String
  points : List Point
deriving DecidableEq, Repr

/-- The batch `map[metricKey]metricValue`, as an association list. -/
abbrev Batch := List (MetricKey × MetricValue)

/-- Map lookup: `v, ok := m[k]` with `ok` encoded by the `Option`. -/
def batchGet : Batch → MetricKey → Option MetricValue
  | [], _ => none
  | (k', v') :: rest, k => if k' = k then some v' else batchGet rest k

/-- Map update `m[k] = v`: replace the existing entry for `k`, or append
a new one. -/
def batchSet : Batch → MetricKey → MetricValue → Batch
  | [], k, v => [(k, v)]
  | (k', v') :: rest, k, v =>
    if k' = k then (k, v) :: rest else (k', v') :: batchSet rest k v

/-- The `Client` struct (src/unnamed/part_001, lines 18-32). The field
`pfx` models the Go field holding the configured series-name prefix. The
`tagsHash` field is never assigned anywhere in the source, so it always
holds its zero value (the empty string, here the empty byte list). -/
structure Client where
  url : String
  database : String
  user : String
  password : String
  allowSelfSigned : Bool
  metricPoints : Batch
  pfx : String
  deployment : String
  ip : String
  tagsHash : List ℕ
  totalMessagesReceived : ℕ
  totalMetricsSent : ℕ
deriving DecidableEq, Repr

/-- `New` (src/unnamed/part_001, lines 58-71). Fields not mentioned in
the Go composite literal (`tagsHash`, the counters) get their zero
values. -/
def Client.new (url database user password : String) (allowSelfSigned : Bool)
    (pfx deployment ip : String) : Client :=
  { url := url
    database := database
    user := user
    password := password
    allowSelfSigned := allowSelfSigned
    metricPoints := []
    pfx := pfx
    deployment := deployment
    ip := ip
    tagsHash := []
    totalMessagesReceived := 0
    totalMetricsSent := 0 }

/-- The key built by `addInternalMetric` (src/unnamed/part_001, lines
215-218): the `eventType` field is omitted from the composite literal,
hence the zero value. -/
def internalKey (c : Client) (name : String) : MetricKey :=
  { eventType := .unset, name := name, tagsHash := c.tagsHash }

/-- The tags attached by `addInternalMetric` (src/unnamed/part_001,
lines 226-229). -/
def internalTags (c : Client) : List String :=
  ["ip=" ++ c.ip, "deployment=" ++ c.deployment]

/-- `addInternalMetric` (src/unnamed/part_001, lines 214-234): overwrite
the series for `name` with a single point carrying `value` at the
current time. -/
def Client.addInternalMetric (c : Client) (name : String) (value : ℕ) (now : ℤ) : Client :=
  { c with metricPoints :=
      batchSet c.metricPoints (internalKey c name) ⟨internalTags c, [⟨now, (value : ℚ)⟩]⟩ }

/-- `AlertSlowConsumerError` (src/unnamed/part_001, lines 73-75). -/
def Client.alertSlowConsumerError (c : Client) (now : ℤ) : Client :=
  c.addInternalMetric "slowConsumerAlert" 1 now

/-- The series key an envelope is grouped under in `AddMetric`
(src/unnamed/part_001, lines 84-88). -/
def mkMetricKey (digest : String → List ℕ) (e : Envelope) : MetricKey :=
  { eventType := e.eventType
    name := getName e
    tagsHash := hashTags digest (parseTags e) }

/-- `AddMetric` (src/unnamed/part_001, lines 77-102). The stored tags
are `sortTags (parseTags e)` because Go's `hashTags` sorts the local
`tags` slice in place before `mVal.tags = tags` runs. -/
def Client.addMetric (digest : String → List ℕ) (c : Client) (e : Envelope) : Client :=
  let c := { c with totalMessagesReceived := c.totalMessagesReceived + 1 }
  if e.eventType ≠ .valueMetric ∧ e.eventType ≠ .counterEvent then c
  else
    let key := mkMetricKey digest e
    let mVal := (batchGet c.metricPoints key).getD ⟨[], []⟩
    let mVal : MetricValue :=
      ⟨sortTags (parseTags e),
       mVal.points ++ [⟨e.timestamp.tdiv 1000000000, getValue e⟩]⟩
    { c with metricPoints := batchSet c.metricPoints key mVal }

/-- `containsSlowConsumerAlert` (src/unnamed/part_001, lines 153-160). -/
def Client.containsSlowConsumerAlert (c : Client) : Bool :=
  (batchGet c.metricPoints (internalKey c "slowConsumerAlert")).isSome

/-- `populateInternalMetrics` (src/unnamed/part_001, lines 144-151). -/
def Client.populateInternalMetrics (c : Client) (now : ℤ) : Client :=
  let c1 := c.addInternalMetric "totalMessagesReceived" c.totalMessagesReceived now
  let c2 := c1.addInternalMetric "totalMetricsSent" c1.totalMetricsSent now
  if c2.containsSlowConsumerAlert then c2
  else c2.addInternalMetric "slowConsumerAlert" 0 now

/-- Models `strconv.FormatFloat(v, 'f', -1, 64)` for the values whose
textual form matters anywhere in this development: for a float holding
an integer below 2^53 the Go call renders the plain decimal integer,
which is `toString` of the numerator. Non-integral values never have
their rendered text inspected by any theorem below. -/
def formatFloat (q : ℚ) : String :=
  if q.den = 1 then toString q.num else toString q

/-- `formatTags` (src/unnamed/part_001, lines 182-192): join with
commas. -/
def formatTags : List String → String
  | [] => ""
  | [t] => t
  | t :: rest => t ++ "," ++ formatTags rest

/-- `formatValues` (src/unnamed/part_001, lines 194-204): one
`value=<v>` field per point, comma-joined. -/
def formatValues (points : List Point) : String :=
  formatTags (points.map (fun p => "value=" ++ formatFloat p.value))

/-- `formatTimestamp` (src/unnamed/part_001, lines 206-212): the first
point's timestamp in nanoseconds, or the current time if there are no
points. -/
def formatTimestamp (now : ℤ) (points : List Point) : String :=
  match points with
  | p :: _ => toString (p.timestamp * 1000 * 1000 * 1000)
  | [] => toString (now * 1000 * 1000 * 1000)

/-- One line of the wire payload: the body of the loop in
`formatMetrics` (src/unnamed/part_001, lines 165-177), including the
hard-coded extra tag appended to every series. -/
def renderLine (pfx : String) (now : ℤ) (kv : MetricKey × MetricValue) : String :=
  let tags := kv.2.tags ++ ["potato=face"]
  pfx ++ kv.1.name ++
    (if tags.length > 0 then "," ++ formatTags tags else "") ++
    " " ++ formatValues kv.2.points ++
    " " ++ formatTimestamp now kv.2.points ++ "\n"

/-- Concatenation of the rendered lines, modelling the accumulation into
`bytes.Buffer` by the loop in `formatMetrics`. -/
def concatStrings : List String → String
  | [] => ""
  | x :: xs => x ++ concatStrings xs

/-- `formatMetrics` (src/unnamed/part_001, lines 162-180): render every
series and return the payload together with the series count. -/
def Client.formatMetrics (c : Client) (now : ℤ) : String × ℕ :=
  (concatStrings (c.metricPoints.map (renderLine c.pfx now)), c.metricPoints.length)

/-- `seriesURL` (src/unnamed/part_001, lines 138-142). -/
def Client.seriesURL (c : Client) : String :=
  c.url ++ "/write?db=" ++ c.database

/-- Outcome of the HTTP POST, as observed by `PostMetrics`:
either a transport-level failure with no response, or a response with a
status code, a status text (Go's `resp.Status`, e.g. `"400 Bad
Request"`) and a body. The body-read failure branch of the Go code
(`ioutil.ReadAll` erroring) is an I/O nondeterminism not representable
in this pure model; the body is modelled as always readable. -/
inductive HttpResult where
  | transportError (msg : String)
  | response (statusCode : ℕ) (status : String) (body : String)
deriving DecidableEq, Repr

/-- The delivery error built for a non-2xx response
(src/unnamed/part_001, line 129). -/
def deliveryErrorMessage (status body : String) : String :=
  "InfluxDB request returned HTTP response: " ++ status ++ ";\n" ++ body

/-- The outbound request as assembled by `PostMetrics`
(src/unnamed/part_001, lines 104-118): the write URL, a hard-coded
content type, the rendered payload as body, `InsecureSkipVerify: true`
hard-coded in the transport regardless of `allowSelfSigned`, and no
credentials of any kind attached (`httpClient.Post` sets no
Authorization header and the URL carries no userinfo). -/
structure HttpRequest where
  url : String
  contentType : String
  body : String
  insecureSkipVerify : Bool
  basicAuth : Option (String × String)
deriving DecidableEq, Repr

/-- The request `PostMetrics` issues from state `c` at time `now`. -/
def Client.buildRequest (c : Client) (now : ℤ) : HttpRequest :=
  { url := c.seriesURL
    contentType := "application/binary"
    body := ((c.populateInternalMetrics now).formatMetrics now).1
    insecureSkipVerify := true
    basicAuth := none }

/-- `PostMetrics` (src/unnamed/part_001, lines 104-136), with the HTTP
outcome passed in as `r`. Returns the new client state and the error (if
any). Note that `populateInternalMetrics` mutates the batch before the
POST, so on failure the retained batch is the populated one. -/
def Client.postMetrics (c : Client) (now : ℤ) (r : HttpResult) : Client × Option String :=
  let c1 := c.populateInternalMetrics now
  let metricsCount := (c1.formatMetrics now).2
  match r with
  | .transportError msg => (c1, some msg)
  | .response code status body =>
    if code ≥ 300 ∨ code < 200 then
      (c1, some (deliveryErrorMessage status body))
    else
      ({ c1 with
          totalMetricsSent := c1.totalMetricsSent + metricsCount
          metricPoints := [] }, none)

/-- A concrete stand-in digest used only to instantiate theorems at
concrete inputs: it has constant width 20 and is collision-free on the
short tags appearing in those instantiations. -/
def digestW (s : String) : List ℕ :=
  (s.data.map Char.toNat).take 20 ++ List.replicate (20 - s.data.length) 0

/-- Concrete client used to instantiate theorems, mirroring the
construction in the repository's test file (`influxdbclient.New(ts.URL,
"testdb", "user", "password", ..., "influxdb.nozzle.",
"test-deployment", "dummy-ip", log)`). -/
def clientW : Client :=
  Client.new "http://localhost:1234" "testdb" "user" "password" false
    "influxdb.nozzle." "test-deployment" "dummy-ip"

/-- Concrete envelope used to instantiate theorems, mirroring the
"sends tags" envelope of the repository's test file. -/
def envW : Envelope :=
  { eventType := .valueMetric
    origin := "test-origin"
    deployment := "deployment-name"
    job := "doppler"
    index := "1"
    ip := "10.0.1.2"
    tags := [("protocol", "http"), ("request_id", "a1f5-deadbeef")]
    timestamp := 1000000000
    valueMetric := some ⟨"metricName", 5⟩
    counterEvent := none }

/-- `envW` with the free-form tags in the other iteration order: the
same tag set, presented by a different Go map iteration. -/
def envW2 : Envelope :=
  { envW with tags := [("request_id", "a1f5-deadbeef"), ("protocol", "http")] }

/-- `envW` with one free-form tag value changed (`protocol=https`),
mirroring the "uses tags as an identifier" test. -/
def envW3 : Envelope :=
  { envW with tags := [("protocol", "https"), ("request_id", "a1f5-deadbeef")] }

/-- Concrete CounterEvent envelope, mirroring the "posts CounterEvents"
test. -/
def envC : Envelope :=
  { eventType := .counterEvent
    origin := "origin"
    deployment := ""
    job := ""
    index := ""
    ip := ""
    tags := []
    timestamp := 2000000000
    valueMetric := none
    counterEvent := some ⟨"counterName", 6, 11⟩ }

/-! ### Helper lemmas: the sort used by `hashTags` -/

theorem strLe_iff (a b : String) : strLe a b = true ↔ a ≤ b := by
  simp [strLe, String.le_iff_toList_le, String.toList]

theorem le_of_strLe_false {a b : String} (h : strLe a b = false) : b ≤ a := by
  rcases le_total a b with h' | h'
  · rw [← strLe_iff] at h'
    simp [h'] at h
  · exact h'

theorem insertTag_perm (t : String) (l : List String) : (insertTag t l).Perm (t :: l) := by
  induction l with
  | nil => simp [insertTag]
  | cons x xs ih =>
    simp only [insertTag]
    split
    · exact List.Perm.refl _
    · exact (List.Perm.cons x ih).trans (List.Perm.swap t x xs)

theorem mem_insertTag {a t : String} {l : List String} :
    a ∈ insertTag t l ↔ a = t ∨ a ∈ l := by
  rw [(insertTag_perm t l).mem_iff, List.mem_cons]

theorem sorted_insertTag {l : List String} (t : String) (h : l.Sorted (· ≤ ·)) :
    (insertTag t l).Sorted (· ≤ ·) := by
  induction l with
  | nil => simp [insertTag]
  | cons x xs ih =>
    rw [List.sorted_cons] at h
    simp only [insertTag]
    split
    · next hc =>
      rw [List.sorted_cons]
      refine ⟨fun b hb => ?_, List.sorted_cons.mpr h⟩
      rcases List.mem_cons.mp hb with hb | hb
      · exact hb ▸ (strLe_iff t x).mp hc
      · exact le_trans ((strLe_iff t x).mp hc) (h.1 b hb)
    · next hc =>
      rw [List.sorted_cons]
      refine ⟨fun b hb => ?_, ih h.2⟩
      rcases mem_insertTag.mp hb with hb | hb
      · exact hb ▸ le_of_strLe_false (Bool.eq_false_iff.mpr hc)
      · exact h.1 b hb

theorem sortTags_perm (l : List String) : (sortTags l).Perm l := by
  induction l with
  | nil => simp [sortTags]
  | cons x xs ih =>
    exact (insertTag_perm x (sortTags xs)).trans (List.Perm.cons x ih)

theorem sorted_sortTags (l : List String) : (sortTags l).Sorted (· ≤ ·) := by
  induction l with
  | nil => simp [sortTags]
  | cons x xs ih => exact sorted_insertTag x ih

theorem sortTags_eq_of_perm {l₁ l₂ : List String} (h : l₁.Perm l₂) :
    sortTags l₁ = sortTags l₂ :=
  List.eq_of_perm_of_sorted
    (((sortTags_perm l₁).trans h).trans (sortTags_perm l₂).symm)
    (sorted_sortTags l₁) (sorted_sortTags l₂)

theorem perm_of_sortTags_eq {l₁ l₂ : List String} (h : sortTags l₁ = sortTags l₂) :
    l₁.Perm l₂ :=
  ((sortTags_perm l₁).symm.trans (h ▸ List.Perm.refl (sortTags l₁))).trans (sortTags_perm l₂)

/-! ### Helper lemmas: `hashTags` -/

theorem foldl_append_digest (digest : String → List ℕ) :
    ∀ (l : List String) (acc : List ℕ),
      l.foldl (fun h t => h ++ digest t) acc = acc ++ (l.map digest).flatten := by
  intro l
  induction l with
  | nil => simp
  | cons x xs ih =>
    intro acc
    simp [ih, List.append_assoc]

theorem hashTags_eq (digest : String → List ℕ) (tags : List String) :
    hashTags digest tags = ((sortTags tags).map digest).flatten := by
  simp [hashTags, foldl_append_digest]

theorem hashTags_eq_of_perm (digest : String → List ℕ) {l₁ l₂ : List String}
    (h : l₁.Perm l₂) : hashTags digest l₁ = hashTags digest l₂ := by
  simp [hashTags, sortTags_eq_of_perm h]

theorem flatten_map_eq_of_fixed_length {f : String → List ℕ} {n : ℕ} (hn : 0 < n) :
    ∀ (l₁ l₂ : List String), (∀ s ∈ l₁, (f s).length = n) → (∀ s ∈ l₂, (f s).length = n) →
      (l₁.map f).flatten = (l₂.map f).flatten → l₁.map f = l₂.map f := by
  intro l₁
  induction l₁ with
  | nil =>
    intro l₂ _ h₂ h
    cases l₂ with
    | nil => rfl
    | cons b bs =>
      exfalso
      have := congrArg List.length h
      simp [h₂ b (List.mem_cons_self b bs)] at this
      omega
  | cons a as ih =>
    intro l₂ h₁ h₂ h
    cases l₂ with
    | nil =>
      exfalso
      have := congrArg List.length h
      simp [h₁ a (List.mem_cons_self a as)] at this
      omega
    | cons b bs =>
      simp only [List.map_cons, List.flatten_cons] at h
      have hlen : (f a).length = (f b).length := by
        rw [h₁ a (List.mem_cons_self a as), h₂ b (List.mem_cons_self b bs)]
      obtain ⟨hfa, hrest⟩ := List.append_inj h hlen
      have := ih bs (fun s hs => h₁ s (List.mem_cons_of_mem a hs))
        (fun s hs => h₂ s (List.mem_cons_of_mem b hs)) hrest
      simp [hfa, this]

theorem map_eq_of_inj_on {f : String → List ℕ} :
    ∀ (l₁ l₂ : List String), (∀ x ∈ l₁, ∀ y ∈ l₂, f x = f y → x = y) →
      l₁.map f = l₂.map f → l₁ = l₂ := by
  intro l₁
  induction l₁ with
  | nil =>
    intro l₂ _ h
    cases l₂ with
    | nil => rfl
    | cons b bs => simp at h
  | cons a as ih =>
    intro l₂ hinj h
    cases l₂ with
    | nil => simp at h
    | cons b bs =>
      simp only [List.map_cons, List.cons.injEq] at h
      have hab : a = b :=
        hinj a (List.mem_cons_self a as) b (List.mem_cons_self b bs) h.1
      have := ih bs
        (fun x hx y hy => hinj x (List.mem_cons_of_mem a hx) y (List.mem_cons_of_mem b hy))
        h.2
      simp [hab, this]

theorem perm_of_hashTags_eq (digest : String → List ℕ) {n : ℕ} (hn : 0 < n)
    {l₁ l₂ : List String}
    (h₁ : ∀ s ∈ l₁, (digest s).length = n) (h₂ : ∀ s ∈ l₂, (digest s).length = n)
    (hinj : ∀ x ∈ l₁, ∀ y ∈ l₂, digest x = digest y → x = y)
    (h : hashTags digest l₁ = hashTags digest l₂) : l₁.Perm l₂ := by
  rw [hashTags_eq, hashTags_eq] at h
  have h₁' : ∀ s ∈ sortTags l₁, (digest s).length = n :=
    fun s hs => h₁ s ((sortTags_perm l₁).mem_iff.mp hs)
  have h₂' : ∀ s ∈ sortTags l₂, (digest s).length = n :=
    fun s hs => h₂ s ((sortTags_perm l₂).mem_iff.mp hs)
  have hmap := flatten_map_eq_of_fixed_length hn (sortTags l₁) (sortTags l₂) h₁' h₂' h
  have heq := map_eq_of_inj_on (sortTags l₁) (sortTags l₂)
    (fun x hx y hy => hinj x ((sortTags_perm l₁).mem_iff.mp hx)
      y ((sortTags_perm l₂).mem_iff.mp hy)) hmap
  exact perm_of_sortTags_eq heq

/-! ### Helper lemmas: the batch association list -/

theorem batchGet_batchSet_same (b : Batch) (k : MetricKey) (v : MetricValue) :
    batchGet (batchSet b k v) k = some v := by
  induction b with
  | nil => simp [batchSet, batchGet]
  | cons kv rest ih =>
    simp only [batchSet]
    split
    · simp [batchGet]
    · next hne => simp [batchGet, hne, ih]

theorem batchGet_batchSet_ne (b : Batch) {k k' : MetricKey} (v : MetricValue)
    (h : k' ≠ k) : batchGet (batchSet b k v) k' = batchGet b k' := by
  induction b with
  | nil =>
    simp only [batchSet, batchGet]
    rw [if_neg (fun hh => h hh.symm)]
  | cons kv rest ih =>
    simp only [batchSet]
    split
    · next heq =>
      simp only [batchGet]
      rw [if_neg (fun hh => h hh.symm), heq, if_neg (fun hh => h hh.symm)]
    · simp only [batchGet, ih]

theorem batchGet_mem {b : Batch} {k : MetricKey} {v : MetricValue}
    (h : batchGet b k = some v) : (k, v) ∈ b := by
  induction b with
  | nil => simp [batchGet] at h
  | cons kv rest ih =>
    simp only [batchGet] at h
    split at h
    · next heq =>
      cases h
      exact heq ▸ List.mem_cons_self _ _
    · exact List.mem_cons_of_mem _ (ih h)

theorem mem_keys_batchSet {b : Batch} {a k : MetricKey} {v : MetricValue} :
    a ∈ (batchSet b k v).map Prod.fst ↔ a = k ∨ a ∈ b.map Prod.fst := by
  induction b with
  | nil => simp [batchSet]
  | cons kv rest ih =>
    simp only [batchSet]
    split
    · next heq => simp [heq, List.mem_cons]
    · simp only [List.map_cons, List.mem_cons, ih]
      tauto

theorem nodup_keys_batchSet {b : Batch} (h : (b.map Prod.fst).Nodup)
    (k : MetricKey) (v : MetricValue) : ((batchSet b k v).map Prod.fst).Nodup := by
  induction b with
  | nil => simp [batchSet]
  | cons kv rest ih =>
    simp only [List.map_cons, List.nodup_cons] at h
    simp only [batchSet]
    split
    · next heq =>
      simp only [List.map_cons, List.nodup_cons]
      exact ⟨heq ▸ h.1, h.2⟩
    · next hne =>
      simp only [List.map_cons, List.nodup_cons]
      refine ⟨fun hmem => ?_, ih h.2⟩
      rcases mem_keys_batchSet.mp hmem with hh | hh
      · exact hne hh
      · exact h.1 hh

/-! ### Helper lemmas: payload concatenation -/

theorem strAppend_assoc (a b c : String) : a ++ b ++ c = a ++ (b ++ c) := by
  apply String.ext
  simp [List.append_assoc]

theorem strEmpty_append (a : String) : "" ++ a = a := by
  apply String.ext
  simp

theorem concat_infix {x : String} {l : List String} (h : x ∈ l) :
    ∃ pre post, concatStrings l = pre ++ x ++ post := by
  induction l with
  | nil => simp at h
  | cons a as ih =>
    rcases List.mem_cons.mp h with hh | hh
    · exact ⟨"", concatStrings as, by rw [concatStrings, hh, strEmpty_append]⟩
    · obtain ⟨pre, post, hp⟩ := ih hh
      refine ⟨a ++ pre, post, ?_⟩
      rw [concatStrings, hp, strAppend_assoc, strAppend_assoc, strAppend_assoc]

/-! ### Helper lemmas: internal metrics -/

theorem internalKey_ne_of_name_ne {c : Client} {n₁ n₂ : String} (h : n₁ ≠ n₂) :
    internalKey c n₁ ≠ internalKey c n₂ := by
  simp [internalKey, h]

theorem addInternalMetric_batch (c : Client) (n : String) (v : ℕ) (t : ℤ) :
    (c.addInternalMetric n v t).metricPoints =
      batchSet c.metricPoints (internalKey c n) ⟨internalTags c, [⟨t, (v : ℚ)⟩]⟩ := rfl

theorem addInternalMetric_config (c : Client) (n : String) (v : ℕ) (t : ℤ) :
    (c.addInternalMetric n v t).tagsHash = c.tagsHash ∧
    (c.addInternalMetric n v t).ip = c.ip ∧
    (c.addInternalMetric n v t).deployment = c.deployment ∧
    (c.addInternalMetric n v t).pfx = c.pfx ∧
    (c.addInternalMetric n v t).totalMessagesReceived = c.totalMessagesReceived ∧
    (c.addInternalMetric n v t).totalMetricsSent = c.totalMetricsSent :=
  ⟨rfl, rfl, rfl, rfl, rfl, rfl⟩

theorem populate_batch (c : Client) (now : ℤ) :
    (c.populateInternalMetrics now).metricPoints =
      if (batchGet c.metricPoints (internalKey c "slowConsumerAlert")).isSome then
        batchSet
          (batchSet c.metricPoints (internalKey c "totalMessagesReceived")
            ⟨internalTags c, [⟨now, (c.totalMessagesReceived : ℚ)⟩]⟩)
          (internalKey c "totalMetricsSent")
          ⟨internalTags c, [⟨now, (c.totalMetricsSent : ℚ)⟩]⟩
      else
        batchSet
          (batchSet
            (batchSet c.metricPoints (internalKey c "totalMessagesReceived")
              ⟨internalTags c, [⟨now, (c.totalMessagesReceived : ℚ)⟩]⟩)
            (internalKey c "totalMetricsSent")
            ⟨internalTags c, [⟨now, (c.totalMetricsSent : ℚ)⟩]⟩)
          (internalKey c "slowConsumerAlert")
          ⟨internalTags c, [⟨now, ((0 : ℕ) : ℚ)⟩]⟩ := by
  have hkey : batchGet
      (batchSet
        (batchSet c.metricPoints (internalKey c "totalMessagesReceived")
          ⟨internalTags c, [⟨now, (c.totalMessagesReceived : ℚ)⟩]⟩)
        (internalKey c "totalMetricsSent")
        ⟨internalTags c, [⟨now, (c.totalMetricsSent : ℚ)⟩]⟩)
      (internalKey c "slowConsumerAlert") =
      batchGet c.metricPoints (internalKey c "slowConsumerAlert") := by
    rw [batchGet_batchSet_ne _ _ (internalKey_ne_of_name_ne (by decide)),
      batchGet_batchSet_ne _ _ (internalKey_ne_of_name_ne (by decide))]
  have hcontains : Client.containsSlowConsumerAlert
      ((c.addInternalMetric "totalMessagesReceived" c.totalMessagesReceived now).addInternalMetric
        "totalMetricsSent"
        (c.addInternalMetric "totalMessagesReceived" c.totalMessagesReceived
          now).totalMetricsSent now) =
      (batchGet c.metricPoints (internalKey c "slowConsumerAlert")).isSome :=
    congrArg Option.isSome hkey
  simp only [Client.populateInternalMetrics]
  rw [apply_ite Client.metricPoints, hcontains]
  split
  · rfl
  · rfl

theorem populate_get_msgReceived (c : Client) (now : ℤ) :
    batchGet (c.populateInternalMetrics now).metricPoints
      (internalKey c "totalMessagesReceived") =
      some ⟨internalTags c, [⟨now, (c.totalMessagesReceived : ℚ)⟩]⟩ := by
  rw [populate_batch]
  split
  · rw [batchGet_batchSet_ne _ _ (internalKey_ne_of_name_ne (by decide)),
      batchGet_batchSet_same]
  · rw [batchGet_batchSet_ne _ _ (internalKey_ne_of_name_ne (by decide)),
      batchGet_batchSet_ne _ _ (internalKey_ne_of_name_ne (by decide)),
      batchGet_batchSet_same]

theorem populate_get_metricsSent (c : Client) (now : ℤ) :
    batchGet (c.populateInternalMetrics now).metricPoints
      (internalKey c "totalMetricsSent") =
      some ⟨internalTags c, [⟨now, (c.totalMetricsSent : ℚ)⟩]⟩ := by
  rw [populate_batch]
  split
  · rw [batchGet_batchSet_same]
  · rw [batchGet_batchSet_ne _ _ (internalKey_ne_of_name_ne (by decide)),
      batchGet_batchSet_same]

theorem populate_get_slow_present (c : Client) (now : ℤ) {v : MetricValue}
    (h : batchGet c.metricPoints (internalKey c "slowConsumerAlert") = some v) :
    batchGet (c.populateInternalMetrics now).metricPoints
      (internalKey c "slowConsumerAlert") = some v := by
  rw [populate_batch, if_pos (by rw [h]; rfl),
    batchGet_batchSet_ne _ _ (internalKey_ne_of_name_ne (by decide)),
    batchGet_batchSet_ne _ _ (internalKey_ne_of_name_ne (by decide))]
  exact h

theorem populate_get_slow_absent (c : Client) (now : ℤ)
    (h : batchGet c.metricPoints (internalKey c "slowConsumerAlert") = none) :
    batchGet (c.populateInternalMetrics now).metricPoints
      (internalKey c "slowConsumerAlert") =
      some ⟨internalTags c, [⟨now, ((0 : ℕ) : ℚ)⟩]⟩ := by
  rw [populate_batch, if_neg (by rw [h]; simp), batchGet_batchSet_same]

theorem populate_get_other (c : Client) (now : ℤ) {k : MetricKey}
    (h₁ : k ≠ internalKey c "totalMessagesReceived")
    (h₂ : k ≠ internalKey c "totalMetricsSent")
    (h₃ : k ≠ internalKey c "slowConsumerAlert") :
    batchGet (c.populateInternalMetrics now).metricPoints k = batchGet c.metricPoints k := by
  rw [populate_batch]
  split
  · rw [batchGet_batchSet_ne _ _ h₂, batchGet_batchSet_ne _ _ h₁]
  · rw [batchGet_batchSet_ne _ _ h₃, batchGet_batchSet_ne _ _ h₂,
      batchGet_batchSet_ne _ _ h₁]

theorem populate_get_eventType_ne (c : Client) (now : ℤ) {k : MetricKey}
    (h : k.eventType ≠ .unset) :
    batchGet (c.populateInternalMetrics now).metricPoints k = batchGet c.metricPoints k := by
  refine populate_get_other c now ?_ ?_ ?_ <;>
    exact fun hk => h (by rw [hk]; rfl)

theorem populate_config (c : Client) (now : ℤ) :
    (c.populateInternalMetrics now).tagsHash = c.tagsHash ∧
    (c.populateInternalMetrics now).ip = c.ip ∧
    (c.populateInternalMetrics now).deployment = c.deployment ∧
    (c.populateInternalMetrics now).pfx = c.pfx ∧
    (c.populateInternalMetrics now).totalMessagesReceived = c.totalMessagesReceived ∧
    (c.populateInternalMetrics now).totalMetricsSent = c.totalMetricsSent := by
  simp only [Client.populateInternalMetrics]
  split
  · exact ⟨rfl, rfl, rfl, rfl, rfl, rfl⟩
  · exact ⟨rfl, rfl, rfl, rfl, rfl, rfl⟩

theorem alert_batch (c : Client) (t : ℤ) :
    (c.alertSlowConsumerError t).metricPoints =
      batchSet c.metricPoints (internalKey c "slowConsumerAlert")
        ⟨internalTags c, [⟨t, ((1 : ℕ) : ℚ)⟩]⟩ := rfl

theorem internalKey_congr {c c' : Client} (h : c'.tagsHash = c.tagsHash) (n : String) :
    internalKey c' n = internalKey c n := by
  simp [internalKey, h]

theorem internalTags_congr {c c' : Client} (hip : c'.ip = c.ip)
    (hdep : c'.deployment = c.deployment) : internalTags c' = internalTags c := by
  simp [internalTags, hip, hdep]

theorem postMetrics_config (c : Client) (now : ℤ) (r : HttpResult) :
    ((c.postMetrics now r).1).tagsHash = c.tagsHash ∧
    ((c.postMetrics now r).1).ip = c.ip ∧
    ((c.postMetrics now r).1).deployment = c.deployment ∧
    ((c.postMetrics now r).1).pfx = c.pfx := by
  have hp := populate_config c now
  simp only [Client.postMetrics]
  cases r with
  | transportError m => exact ⟨hp.1, hp.2.1, hp.2.2.1, hp.2.2.2.1⟩
  | response code status body =>
    dsimp only
    by_cases hc : code ≥ 300 ∨ code < 200
    · rw [if_pos hc]
      exact ⟨hp.1, hp.2.1, hp.2.2.1, hp.2.2.2.1⟩
    · rw [if_neg hc]
      exact ⟨hp.1, hp.2.1, hp.2.2.1, hp.2.2.2.1⟩

theorem postMetrics_success_batch (c : Client) (now : ℤ) (code : ℕ) (status body : String)
    (h₁ : 200 ≤ code) (h₂ : code < 300) :
    ((c.postMetrics now (.response code status body)).1).metricPoints = [] := by
  simp only [Client.postMetrics]
  rw [if_neg (by omega)]

theorem addMetric_get_same (digest : String → List ℕ) (c : Client) (e : Envelope)
    (he : e.eventType = .valueMetric ∨ e.eventType = .counterEvent) :
    batchGet (c.addMetric digest e).metricPoints (mkMetricKey digest e) =
      some ⟨sortTags (parseTags e),
        ((batchGet c.metricPoints (mkMetricKey digest e)).getD ⟨[], []⟩).points ++
          [⟨e.timestamp.tdiv 1000000000, getValue e⟩]⟩ := by
  have hcond : ¬ (e.eventType ≠ .valueMetric ∧ e.eventType ≠ .counterEvent) := by
    rcases he with h | h <;> simp [h]
  simp only [Client.addMetric]
  rw [if_neg hcond]
  exact batchGet_batchSet_same _ _ _

theorem addMetric_get_ne (digest : String → List ℕ) (c : Client) (e : Envelope)
    {k : MetricKey} (hk : k ≠ mkMetricKey digest e) :
    batchGet (c.addMetric digest e).metricPoints k = batchGet c.metricPoints k := by
  simp only [Client.addMetric]
  split
  · rfl
  · exact batchGet_batchSet_ne _ _ hk

/-! ### Claim C3 -/

/-- C3: `PostMetrics` classifies every response with status code in
[200, 300) as success returning no error; for every other status code it
returns an error carrying both the HTTP status and the response body
content (here: the error is literally the status and body embedded in
the fixed message format); a transport-level failure with no response
returns the underlying transport error. -/
theorem postMetrics_response_classification (c : Client) (now : ℤ)
    (code : ℕ) (status body msg : String) :
    (200 ≤ code → code < 300 →
      (c.postMetrics now (.response code status body)).2 = none) ∧
    (code < 200 ∨ 300 ≤ code →
      (c.postMetrics now (.response code status body)).2 =
        some (deliveryErrorMessage status body) ∧
      (∃ pre post, deliveryErrorMessage status body = pre ++ status ++ post) ∧
      (∃ pre, deliveryErrorMessage status body = pre ++ body)) ∧
    ((c.postMetrics now (.transportError msg)).2 = some msg) := by
  refine ⟨fun h₁ h₂ => ?_, fun h => ⟨?_, ?_, ?_⟩, rfl⟩
  · simp only [Client.postMetrics]
    rw [if_neg (by omega)]
  · simp only [Client.postMetrics]
    rw [if_pos (by omega)]
  · exact ⟨"InfluxDB request returned HTTP response: ", ";\n" ++ body,
      strAppend_assoc ("InfluxDB request returned HTTP response: " ++ status) ";\n" body⟩
  · exact ⟨"InfluxDB request returned HTTP response: " ++ status ++ ";\n", rfl⟩

/-- Witness for `postMetrics_response_classification`: instantiation at
status 201 (success), 400 (failure) and a transport error. -/
theorem postMetrics_response_classification_witness :
    ((clientW.postMetrics 0 (.response 201 "201 Created" "")).2 = none) ∧
    ((clientW.postMetrics 0 (.response 400 "400 Bad Request" "oops")).2 =
        some (deliveryErrorMessage "400 Bad Request" "oops") ∧
      (∃ pre post, deliveryErrorMessage "400 Bad Request" "oops" =
        pre ++ "400 Bad Request" ++ post) ∧
      (∃ pre, deliveryErrorMessage "400 Bad Request" "oops" = pre ++ "oops")) ∧
    ((clientW.postMetrics 0 (.transportError "connection refused")).2 =
      some "connection refused") :=
  ⟨(postMetrics_response_classification clientW 0 201 "201 Created" "" "connection refused").1
      (by norm_num) (by norm_num),
   (postMetrics_response_classification clientW 0 400 "400 Bad Request" "oops"
      "connection refused").2.1 (by norm_num),
   (postMetrics_response_classification clientW 0 400 "400 Bad Request" "oops"
      "connection refused").2.2⟩

/-! ### Claim C4 -/

/-- C4 counterexample: at a concrete client constructed with the TLS
switch off (`allowSelfSigned = false`) and non-empty credentials, the
outbound request still skips certificate verification and carries no
basic-auth credentials, contradicting the claim that the switch governs
verification and that the credentials are attached. -/
theorem postMetrics_config_threading_counterexample :
    ¬ ((clientW.allowSelfSigned = false → (clientW.buildRequest 0).insecureSkipVerify = false) ∧
       (clientW.buildRequest 0).basicAuth = some (clientW.user, clientW.password)) := by
  intro h
  have h1 := h.1 rfl
  simp only [Client.buildRequest] at h1
  cases h1

/-- C4 amended: the POST does go to `<baseURL>/write?db=<database>` with
the rendered payload as body and a fixed binary content type, but the
configured credentials are never attached to the request and certificate
verification is always skipped (`InsecureSkipVerify: true` is
hard-coded), regardless of the switch given at construction. -/
theorem postMetrics_config_threading_amended (c : Client) (now : ℤ) :
    (c.buildRequest now).url = c.url ++ "/write?db=" ++ c.database ∧
    (c.buildRequest now).contentType = "application/binary" ∧
    (c.buildRequest now).body = ((c.populateInternalMetrics now).formatMetrics now).1 ∧
    (c.buildRequest now).insecureSkipVerify = true ∧
    (c.buildRequest now).basicAuth = none :=
  ⟨rfl, rfl, rfl, rfl, rfl⟩

/-! ### Claim C10 -/

/-- C10: internal series and envelope-derived series occupy disjoint
keys. Every key written by `addInternalMetric` carries the zero event
type, every key written by `AddMetric` carries `ValueMetric` or
`CounterEvent`; hence `AddMetric` never changes the batch at any
zero-event-type key, and `addInternalMetric` never changes the batch at
any `ValueMetric`/`CounterEvent` key. -/
theorem internal_envelope_series_disjoint (digest : String → List ℕ) (c : Client)
    (e : Envelope) (k : MetricKey) (name : String) (v : ℕ) (now : ℤ) :
    (k.eventType = .unset →
      batchGet (c.addMetric digest e).metricPoints k = batchGet c.metricPoints k) ∧
    ((k.eventType = .valueMetric ∨ k.eventType = .counterEvent) →
      batchGet (c.addInternalMetric name v now).metricPoints k = batchGet c.metricPoints k) := by
  constructor
  · intro hk
    simp only [Client.addMetric]
    split
    · rfl
    · next hcond =>
      apply batchGet_batchSet_ne
      intro hkeq
      rcases not_and_or.mp hcond with h | h <;> rw [not_ne_iff] at h <;>
        rw [hkeq] at hk <;> simp [mkMetricKey, h] at hk
  · intro hk
    rw [addInternalMetric_batch]
    apply batchGet_batchSet_ne
    intro hkeq
    rw [hkeq] at hk
    rcases hk with h | h <;> simp [internalKey] at h

/-- Witness for `internal_envelope_series_disjoint`: a concrete
`AddMetric` call leaves the slow-consumer key alone, and a concrete
`addInternalMetric` call leaves a concrete envelope key alone. -/
theorem internal_envelope_series_disjoint_witness :
    (batchGet (clientW.addMetric digestW envW).metricPoints
        (internalKey clientW "slowConsumerAlert") =
      batchGet clientW.metricPoints (internalKey clientW "slowConsumerAlert")) ∧
    (batchGet (clientW.addInternalMetric "totalMessagesReceived" 7 3).metricPoints
        (mkMetricKey digestW envW) =
      batchGet clientW.metricPoints (mkMetricKey digestW envW)) :=
  ⟨(internal_envelope_series_disjoint digestW clientW envW
      (internalKey clientW "slowConsumerAlert") "totalMessagesReceived" 7 3).1 rfl,
   (internal_envelope_series_disjoint digestW clientW envW
      (mkMetricKey digestW envW) "totalMessagesReceived" 7 3).2 (Or.inl rfl)⟩

/-! ### Claim C1 -/

/-- C1: `PostMetrics` is atomic with respect to the delivery outcome.
On success the batch is replaced by the empty map, `totalMetricsSent`
grows by exactly the rendered series count, and no error is returned;
on failure (non-2xx response or transport error) the batch and
`totalMetricsSent` are exactly as they were at the point of failure
(i.e. the batch as populated by `populateInternalMetrics`), and the
classified error is returned. The last conjunct records that the
rendered series count is a count of distinct series: key-uniqueness of
the batch is preserved by the population step. -/
theorem postMetrics_atomic (c : Client) (now : ℤ) (code : ℕ) (status body msg : String) :
    (200 ≤ code → code < 300 →
      (c.postMetrics now (.response code status body)).1.metricPoints = [] ∧
      (c.postMetrics now (.response code status body)).1.totalMetricsSent =
        c.totalMetricsSent + ((c.populateInternalMetrics now).formatMetrics now).2 ∧
      (c.postMetrics now (.response code status body)).2 = none) ∧
    (code < 200 ∨ 300 ≤ code →
      (c.postMetrics now (.response code status body)).1.metricPoints =
        (c.populateInternalMetrics now).metricPoints ∧
      (c.postMetrics now (.response code status body)).1.totalMetricsSent =
        c.totalMetricsSent ∧
      (c.postMetrics now (.response code status body)).2 =
        some (deliveryErrorMessage status body)) ∧
    ((c.postMetrics now (.transportError msg)).1.metricPoints =
        (c.populateInternalMetrics now).metricPoints ∧
      (c.postMetrics now (.transportError msg)).1.totalMetricsSent = c.totalMetricsSent ∧
      (c.postMetrics now (.transportError msg)).2 = some msg) ∧
    ((c.metricPoints.map Prod.fst).Nodup →
      ((c.populateInternalMetrics now).metricPoints.map Prod.fst).Nodup) := by
  have hsent := (populate_config c now).2.2.2.2.2
  refine ⟨fun h₁ h₂ => ?_, fun h => ?_, ⟨rfl, hsent, rfl⟩, fun h => ?_⟩
  · simp only [Client.postMetrics]
    rw [if_neg (by omega)]
    exact ⟨rfl, by rw [hsent], rfl⟩
  · simp only [Client.postMetrics]
    rw [if_pos (by omega)]
    exact ⟨rfl, hsent, rfl⟩
  · rw [populate_batch]
    split
    · exact nodup_keys_batchSet (nodup_keys_batchSet h _ _) _ _
    · exact nodup_keys_batchSet (nodup_keys_batchSet (nodup_keys_batchSet h _ _) _ _) _ _

/-- Witness for `postMetrics_atomic`: the concrete client at a 201
success, a 400 failure and a transport failure. -/
theorem postMetrics_atomic_witness :
    ((clientW.postMetrics 0 (.response 201 "201 Created" "")).1.metricPoints = [] ∧
      (clientW.postMetrics 0 (.response 201 "201 Created" "")).1.totalMetricsSent =
        clientW.totalMetricsSent + ((clientW.populateInternalMetrics 0).formatMetrics 0).2 ∧
      (clientW.postMetrics 0 (.response 201 "201 Created" "")).2 = none) ∧
    ((clientW.postMetrics 0 (.response 400 "400 Bad Request" "oops")).1.metricPoints =
        (clientW.populateInternalMetrics 0).metricPoints ∧
      (clientW.postMetrics 0 (.response 400 "400 Bad Request" "oops")).1.totalMetricsSent =
        clientW.totalMetricsSent ∧
      (clientW.postMetrics 0 (.response 400 "400 Bad Request" "oops")).2 =
        some (deliveryErrorMessage "400 Bad Request" "oops")) ∧
    ((clientW.postMetrics 0 (.transportError "connection refused")).1.metricPoints =
        (clientW.populateInternalMetrics 0).metricPoints ∧
      (clientW.postMetrics 0 (.transportError "connection refused")).1.totalMetricsSent =
        clientW.totalMetricsSent ∧
      (clientW.postMetrics 0 (.transportError "connection refused")).2 =
        some "connection refused") ∧
    ((clientW.populateInternalMetrics 0).metricPoints.map Prod.fst).Nodup :=
  ⟨(postMetrics_atomic clientW 0 201 "201 Created" "" "connection refused").1
      (by norm_num) (by norm_num),
   (postMetrics_atomic clientW 0 400 "400 Bad Request" "oops" "connection refused").2.1
      (by norm_num),
   (postMetrics_atomic clientW 0 400 "400 Bad Request" "oops" "connection refused").2.2.1,
   (postMetrics_atomic clientW 0 400 "400 Bad Request" "oops" "connection refused").2.2.2
      (by decide)⟩

/-! ### Claim C9 -/

/-- C9: a flush after zero `Consume` calls since the last successful
flush (empty batch) still renders a non-empty payload containing
exactly the three internal series, each with a single point. -/
theorem flush_idle (c : Client) (now : ℤ) (h : c.metricPoints = []) :
    (c.populateInternalMetrics now).metricPoints =
      [(internalKey c "totalMessagesReceived",
        ⟨internalTags c, [⟨now, (c.totalMessagesReceived : ℚ)⟩]⟩),
       (internalKey c "totalMetricsSent",
        ⟨internalTags c, [⟨now, (c.totalMetricsSent : ℚ)⟩]⟩),
       (internalKey c "slowConsumerAlert",
        ⟨internalTags c, [⟨now, ((0 : ℕ) : ℚ)⟩]⟩)] ∧
    ((c.populateInternalMetrics now).formatMetrics now).2 = 3 ∧
    ((c.populateInternalMetrics now).formatMetrics now).1 ≠ "" := by
  have hb : (c.populateInternalMetrics now).metricPoints =
      [(internalKey c "totalMessagesReceived",
        ⟨internalTags c, [⟨now, (c.totalMessagesReceived : ℚ)⟩]⟩),
       (internalKey c "totalMetricsSent",
        ⟨internalTags c, [⟨now, (c.totalMetricsSent : ℚ)⟩]⟩),
       (internalKey c "slowConsumerAlert",
        ⟨internalTags c, [⟨now, ((0 : ℕ) : ℚ)⟩]⟩)] := by
    rw [populate_batch, h]
    rw [if_neg (by simp [batchGet])]
    simp only [batchSet]
    rw [if_neg (internalKey_ne_of_name_ne (by decide)),
      if_neg (internalKey_ne_of_name_ne (by decide))]
  have hpfx : (c.populateInternalMetrics now).pfx = c.pfx := (populate_config c now).2.2.2.1
  refine ⟨hb, ?_, ?_⟩
  · show (c.populateInternalMetrics now).metricPoints.length = 3
    rw [hb]
    simp
  · show concatStrings ((c.populateInternalMetrics now).metricPoints.map
      (renderLine (c.populateInternalMetrics now).pfx now)) ≠ ""
    rw [hb, hpfx]
    intro heq
    have hlen := congrArg String.length heq
    have hnl : ("\n" : String).length = 1 := rfl
    simp [concatStrings, renderLine, internalTags, String.length_append, hnl] at hlen

/-- Witness for `flush_idle`: the freshly constructed concrete client. -/
theorem flush_idle_witness :
    (clientW.populateInternalMetrics 0).metricPoints =
      [(internalKey clientW "totalMessagesReceived",
        ⟨internalTags clientW, [⟨0, (clientW.totalMessagesReceived : ℚ)⟩]⟩),
       (internalKey clientW "totalMetricsSent",
        ⟨internalTags clientW, [⟨0, (clientW.totalMetricsSent : ℚ)⟩]⟩),
       (internalKey clientW "slowConsumerAlert",
        ⟨internalTags clientW, [⟨0, ((0 : ℕ) : ℚ)⟩]⟩)] ∧
    ((clientW.populateInternalMetrics 0).formatMetrics 0).2 = 3 ∧
    ((clientW.populateInternalMetrics 0).formatMetrics 0).1 ≠ "" :=
  flush_idle clientW 0 rfl

/-! ### Claim C8 -/

/-- C8: every `AddMetric` call increments `totalMessagesReceived`
regardless of event type; for `ValueMetric`/`CounterEvent` envelopes
exactly one point `(timestampNanos / 1e9, value)` is appended to the
envelope's series (and no other series changes), where the value is the
ValueMetric's value, or the CounterEvent's running total — not the
delta. -/
theorem addMetric_effects (digest : String → List ℕ) (c : Client) (e : Envelope) :
    ((c.addMetric digest e).totalMessagesReceived = c.totalMessagesReceived + 1) ∧
    ((e.eventType = .valueMetric ∨ e.eventType = .counterEvent) →
      batchGet (c.addMetric digest e).metricPoints (mkMetricKey digest e) =
        some ⟨sortTags (parseTags e),
          ((batchGet c.metricPoints (mkMetricKey digest e)).getD ⟨[], []⟩).points ++
            [⟨e.timestamp.tdiv 1000000000, getValue e⟩]⟩ ∧
      ∀ k, k ≠ mkMetricKey digest e →
        batchGet (c.addMetric digest e).metricPoints k = batchGet c.metricPoints k) ∧
    (∀ vm, e.eventType = .valueMetric → e.valueMetric = some vm → getValue e = vm.value) ∧
    (∀ ce, e.eventType = .counterEvent → e.counterEvent = some ce →
      getValue e = (ce.total : ℚ)) := by
  refine ⟨?_, fun he => ?_, fun vm h₁ h₂ => ?_, fun ce h₁ h₂ => ?_⟩
  · simp only [Client.addMetric]
    split
    · rfl
    · rfl
  · have hcond : ¬ (e.eventType ≠ .valueMetric ∧ e.eventType ≠ .counterEvent) := by
      rcases he with h | h <;> simp [h]
    simp only [Client.addMetric]
    rw [if_neg hcond]
    exact ⟨batchGet_batchSet_same _ _ _, fun k hk => batchGet_batchSet_ne _ _ hk⟩
  · simp [getValue, h₁, h₂]
  · simp [getValue, h₁, h₂]

/-- Witness for `addMetric_effects`: the concrete ValueMetric envelope
`envW` and the concrete CounterEvent envelope `envC`. -/
theorem addMetric_effects_witness :
    ((clientW.addMetric digestW envW).totalMessagesReceived =
      clientW.totalMessagesReceived + 1) ∧
    (batchGet (clientW.addMetric digestW envW).metricPoints (mkMetricKey digestW envW) =
        some ⟨sortTags (parseTags envW),
          ((batchGet clientW.metricPoints (mkMetricKey digestW envW)).getD ⟨[], []⟩).points ++
            [⟨envW.timestamp.tdiv 1000000000, getValue envW⟩]⟩ ∧
      ∀ k, k ≠ mkMetricKey digestW envW →
        batchGet (clientW.addMetric digestW envW).metricPoints k =
          batchGet clientW.metricPoints k) ∧
    (getValue envW = (⟨"metricName", 5⟩ : ValueMetricData).value) ∧
    (getValue envC = ((⟨"counterName", 6, 11⟩ : CounterEventData).total : ℚ)) :=
  ⟨(addMetric_effects digestW clientW envW).1,
   (addMetric_effects digestW clientW envW).2.1 (Or.inl rfl),
   (addMetric_effects digestW clientW envW).2.2.1 ⟨"metricName", 5⟩ rfl rfl,
   (addMetric_effects digestW clientW envC).2.2.2 ⟨"counterName", 6, 11⟩ rfl rfl⟩

/-! ### Claim C6 -/

/-- C6: the slow-consumer alert is one-shot. After
`AlertSlowConsumerError()`, the flushed batch carries a
`slowConsumerAlert` series with the single point `1` (and the rendered
payload contains its line, whose value field renders as `value=1`); a
flush with no alert queued carries the series with value `0`; and after
a successful flush that included the alert, the next flush (with no new
alert call) carries value `0` again. -/
theorem slowConsumerAlert_one_shot (c : Client) (t₁ t₂ t₃ t₄ : ℤ)
    (code : ℕ) (status body : String) :
    (batchGet ((c.alertSlowConsumerError t₁).populateInternalMetrics t₂).metricPoints
        (internalKey c "slowConsumerAlert") =
        some ⟨internalTags c, [⟨t₁, 1⟩]⟩ ∧
      ∃ pre post,
        (((c.alertSlowConsumerError t₁).populateInternalMetrics t₂).formatMetrics t₃).1 =
          pre ++ renderLine c.pfx t₃
            (internalKey c "slowConsumerAlert", ⟨internalTags c, [⟨t₁, 1⟩]⟩) ++ post) ∧
    formatValues [⟨t₁, 1⟩] = "value=1" ∧
    (batchGet c.metricPoints (internalKey c "slowConsumerAlert") = none →
      batchGet (c.populateInternalMetrics t₂).metricPoints
          (internalKey c "slowConsumerAlert") =
        some ⟨internalTags c, [⟨t₂, 0⟩]⟩) ∧
    (200 ≤ code → code < 300 →
      batchGet ((((c.alertSlowConsumerError t₁).postMetrics t₂
            (.response code status body)).1).populateInternalMetrics t₄).metricPoints
          (internalKey c "slowConsumerAlert") =
        some ⟨internalTags c, [⟨t₄, 0⟩]⟩) := by
  have hA : batchGet ((c.alertSlowConsumerError t₁).populateInternalMetrics t₂).metricPoints
      (internalKey c "slowConsumerAlert") = some ⟨internalTags c, [⟨t₁, 1⟩]⟩ := by
    have h₁ : batchGet (c.alertSlowConsumerError t₁).metricPoints
        (internalKey (c.alertSlowConsumerError t₁) "slowConsumerAlert") =
        some ⟨internalTags (c.alertSlowConsumerError t₁), [⟨t₁, ((1 : ℕ) : ℚ)⟩]⟩ := by
      rw [alert_batch]
      exact batchGet_batchSet_same _ _ _
    have h₂ := populate_get_slow_present (c.alertSlowConsumerError t₁) t₂ h₁
    rw [Nat.cast_one] at h₂
    exact h₂
  refine ⟨⟨hA, ?_⟩, ?_, fun h => ?_, fun h₁ h₂ => ?_⟩
  · have hmem := batchGet_mem hA
    have hpfx : ((c.alertSlowConsumerError t₁).populateInternalMetrics t₂).pfx = c.pfx :=
      (populate_config (c.alertSlowConsumerError t₁) t₂).2.2.2.1
    show ∃ pre post,
      concatStrings
        (((c.alertSlowConsumerError t₁).populateInternalMetrics t₂).metricPoints.map
          (renderLine ((c.alertSlowConsumerError t₁).populateInternalMetrics t₂).pfx t₃)) = _
    rw [hpfx]
    exact concat_infix (List.mem_map_of_mem _ hmem)
  · rfl
  · have := populate_get_slow_absent c t₂ h
    rw [Nat.cast_zero] at this
    exact this
  · have hempty := postMetrics_success_batch (c.alertSlowConsumerError t₁) t₂ code status body
      h₁ h₂
    have cfg := postMetrics_config (c.alertSlowConsumerError t₁) t₂ (.response code status body)
    have hnone : batchGet
        (((c.alertSlowConsumerError t₁).postMetrics t₂ (.response code status body)).1).metricPoints
        (internalKey (((c.alertSlowConsumerError t₁).postMetrics t₂
          (.response code status body)).1) "slowConsumerAlert") = none := by
      rw [hempty]
      rfl
    have happ := populate_get_slow_absent
      (((c.alertSlowConsumerError t₁).postMetrics t₂ (.response code status body)).1) t₄ hnone
    rw [Nat.cast_zero, internalKey_congr cfg.1,
      internalTags_congr cfg.2.1 cfg.2.2.1] at happ
    exact happ

/-- Witness for `slowConsumerAlert_one_shot`: the concrete client at
concrete times and a 201 success. -/
theorem slowConsumerAlert_one_shot_witness :
    (batchGet ((clientW.alertSlowConsumerError 1).populateInternalMetrics 2).metricPoints
        (internalKey clientW "slowConsumerAlert") =
        some ⟨internalTags clientW, [⟨1, 1⟩]⟩ ∧
      ∃ pre post,
        (((clientW.alertSlowConsumerError 1).populateInternalMetrics 2).formatMetrics 3).1 =
          pre ++ renderLine clientW.pfx 3
            (internalKey clientW "slowConsumerAlert",
              ⟨internalTags clientW, [⟨1, 1⟩]⟩) ++ post) ∧
    formatValues [⟨1, 1⟩] = "value=1" ∧
    batchGet (clientW.populateInternalMetrics 2).metricPoints
        (internalKey clientW "slowConsumerAlert") =
      some ⟨internalTags clientW, [⟨2, 0⟩]⟩ ∧
    batchGet ((((clientW.alertSlowConsumerError 1).postMetrics 2
          (.response 201 "201 Created" "")).1).populateInternalMetrics 4).metricPoints
        (internalKey clientW "slowConsumerAlert") =
      some ⟨internalTags clientW, [⟨4, 0⟩]⟩ :=
  ⟨(slowConsumerAlert_one_shot clientW 1 2 3 4 201 "201 Created" "").1,
   (slowConsumerAlert_one_shot clientW 1 2 3 4 201 "201 Created" "").2.1,
   (slowConsumerAlert_one_shot clientW 1 2 3 4 201 "201 Created" "").2.2.1 rfl,
   (slowConsumerAlert_one_shot clientW 1 2 3 4 201 "201 Created" "").2.2.2
     (by norm_num) (by norm_num)⟩

/-! ### Claim C2 -/

/-- C2: two envelopes with the same event type, the same qualified name
and tag sets that are permutations of each other (any insertion order of
the free-form tags mapping) are grouped under one and the same series
key, and their points accumulate under it; two envelopes whose tag sets
differ in any element (as long as the abstract digest is 20 bytes wide
and collision-free on the tags in play, which models the SHA-1 digest
used by the code) land under distinct series keys, and adding one never
touches the other's series. -/
theorem consume_groups_by_series_key (digest : String → List ℕ) (c : Client)
    (e₁ e₂ e₃ : Envelope) :
    ((e₁.eventType = .valueMetric ∨ e₁.eventType = .counterEvent) →
     e₂.eventType = e₁.eventType → getName e₂ = getName e₁ →
     (parseTags e₂).Perm (parseTags e₁) →
      mkMetricKey digest e₂ = mkMetricKey digest e₁ ∧
      batchGet ((c.addMetric digest e₁).addMetric digest e₂).metricPoints
          (mkMetricKey digest e₁) =
        some ⟨sortTags (parseTags e₂),
          ((batchGet c.metricPoints (mkMetricKey digest e₁)).getD ⟨[], []⟩).points ++
            [⟨e₁.timestamp.tdiv 1000000000, getValue e₁⟩,
             ⟨e₂.timestamp.tdiv 1000000000, getValue e₂⟩]⟩) ∧
    ((∀ s ∈ parseTags e₃, (digest s).length = 20) →
     (∀ s ∈ parseTags e₁, (digest s).length = 20) →
     (∀ x ∈ parseTags e₃, ∀ y ∈ parseTags e₁, digest x = digest y → x = y) →
     ¬ (parseTags e₃).Perm (parseTags e₁) →
      mkMetricKey digest e₃ ≠ mkMetricKey digest e₁ ∧
      batchGet ((c.addMetric digest e₁).addMetric digest e₃).metricPoints
          (mkMetricKey digest e₁) =
        batchGet (c.addMetric digest e₁).metricPoints (mkMetricKey digest e₁)) := by
  constructor
  · intro he₁ het hname hperm
    have hkey : mkMetricKey digest e₂ = mkMetricKey digest e₁ := by
      simp [mkMetricKey, het, hname, hashTags_eq_of_perm digest hperm]
    have he₂ : e₂.eventType = .valueMetric ∨ e₂.eventType = .counterEvent := by
      rw [het]; exact he₁
    refine ⟨hkey, ?_⟩
    have h2 := addMetric_get_same digest (c.addMetric digest e₁) e₂ he₂
    rw [hkey] at h2
    rw [addMetric_get_same digest c e₁ he₁] at h2
    simpa [List.append_assoc] using h2
  · intro hlen₃ hlen₁ hinj hnperm
    have hkey : mkMetricKey digest e₃ ≠ mkMetricKey digest e₁ := by
      intro hk
      exact hnperm (perm_of_hashTags_eq digest (by norm_num) hlen₃ hlen₁ hinj
        (congrArg MetricKey.tagsHash hk))
    exact ⟨hkey, addMetric_get_ne digest _ e₃ (Ne.symm hkey)⟩

/-- Witness for `consume_groups_by_series_key`: `envW2` presents the
same tag set as `envW` in the other map order and lands on the same key
with both points accumulated; `envW3` differs in one tag value and lands
on a different key without touching `envW`'s series. -/
theorem consume_groups_by_series_key_witness :
    (mkMetricKey digestW envW2 = mkMetricKey digestW envW ∧
      batchGet ((clientW.addMetric digestW envW).addMetric digestW envW2).metricPoints
          (mkMetricKey digestW envW) =
        some ⟨sortTags (parseTags envW2),
          ((batchGet clientW.metricPoints (mkMetricKey digestW envW)).getD ⟨[], []⟩).points ++
            [⟨envW.timestamp.tdiv 1000000000, getValue envW⟩,
             ⟨envW2.timestamp.tdiv 1000000000, getValue envW2⟩]⟩) ∧
    (mkMetricKey digestW envW3 ≠ mkMetricKey digestW envW ∧
      batchGet ((clientW.addMetric digestW envW).addMetric digestW envW3).metricPoints
          (mkMetricKey digestW envW) =
        batchGet (clientW.addMetric digestW envW).metricPoints (mkMetricKey digestW envW)) :=
  ⟨(consume_groups_by_series_key digestW clientW envW envW2 envW3).1
      (Or.inl rfl) rfl rfl (by decide),
   (consume_groups_by_series_key digestW clientW envW envW2 envW3).2
      (by decide) (by decide) (by decide) (by decide)⟩

/-! ### Claim C7 -/

/-- C7 counterexample: `hashTags` does not sort a copy — Go's
`sort.Strings` sorts the slice in place, so the tags stored in the
series value are in sorted order, not in the construction order
(deployment, job, index, ip, free-form tags). At the concrete envelope
`envW`, the stored tag list differs from `parseTags envW`: `index=1` and
`ip=10.0.1.2` sort before `job=doppler`. -/
theorem hash_in_place_sort_counterexample :
    parseTags envW = ["deployment=deployment-name", "job=doppler", "index=1",
      "ip=10.0.1.2", "protocol=http", "request_id=a1f5-deadbeef"] ∧
    batchGet (clientW.addMetric digestW envW).metricPoints (mkMetricKey digestW envW) =
      some ⟨["deployment=deployment-name", "index=1", "ip=10.0.1.2", "job=doppler",
        "protocol=http", "request_id=a1f5-deadbeef"], [⟨1, 5⟩]⟩ ∧
    ¬ batchGet (clientW.addMetric digestW envW).metricPoints (mkMetricKey digestW envW) =
      some ⟨parseTags envW, [⟨1, 5⟩]⟩ := by
  decide

/-- C7 amended: `hashTags` sorts the tag slice in place, so the tags
stored in the series value (and later rendered on the wire) are the
sorted tag list rather than the construction-order list; tag order
still never affects series identity, because the hash is taken over the
sorted list. -/
theorem hash_in_place_sort_amended (digest : String → List ℕ) (c : Client)
    (e : Envelope) (l₁ l₂ : List String)
    (he : e.eventType = .valueMetric ∨ e.eventType = .counterEvent) :
    (∃ pts, batchGet (c.addMetric digest e).metricPoints (mkMetricKey digest e) =
      some ⟨sortTags (parseTags e), pts⟩) ∧
    (l₁.Perm l₂ → hashTags digest l₁ = hashTags digest l₂) :=
  ⟨⟨_, addMetric_get_same digest c e he⟩, fun h => hashTags_eq_of_perm digest h⟩

/-- Witness for `hash_in_place_sort_amended`. -/
theorem hash_in_place_sort_amended_witness :
    (∃ pts, batchGet (clientW.addMetric digestW envW).metricPoints
      (mkMetricKey digestW envW) = some ⟨sortTags (parseTags envW), pts⟩) ∧
    hashTags digestW ["job=doppler", "index=1"] = hashTags digestW ["index=1", "job=doppler"] :=
  ⟨(hash_in_place_sort_amended digestW clientW envW
      ["job=doppler", "index=1"] ["index=1", "job=doppler"] (Or.inl rfl)).1,
   (hash_in_place_sort_amended digestW clientW envW
      ["job=doppler", "index=1"] ["index=1", "job=doppler"] (Or.inl rfl)).2 (by decide)⟩

/-! ### Claim C5 -/

/-- C5 counterexample: after a failed flush the batch does carry
forward, but the internal-metric points do not survive into the next
rendered payload: the next flush's `populateInternalMetrics` overwrites
the `totalMessagesReceived` series with a fresh single point, so the
previously undelivered point `(0, 0)` is absent from the next payload's
series, contradicting the claim that the next payload includes the
previously undelivered points of every series, internal-metric series
included. -/
theorem failed_flush_internal_points_counterexample :
    ((clientW.postMetrics 0 (.response 400 "400 Bad Request" "oops")).2).isSome = true ∧
    batchGet ((clientW.postMetrics 0 (.response 400 "400 Bad Request" "oops")).1).metricPoints
        (internalKey clientW "totalMessagesReceived") =
      some ⟨internalTags clientW, [⟨0, 0⟩]⟩ ∧
    batchGet (((clientW.postMetrics 0
          (.response 400 "400 Bad Request" "oops")).1).populateInternalMetrics 1).metricPoints
        (internalKey clientW "totalMessagesReceived") =
      some ⟨internalTags clientW, [⟨1, 0⟩]⟩ ∧
    ¬ ((⟨0, 0⟩ : Point) ∈
        ((batchGet (((clientW.postMetrics 0
            (.response 400 "400 Bad Request" "oops")).1).populateInternalMetrics 1).metricPoints
          (internalKey clientW "totalMessagesReceived")).getD ⟨[], []⟩).points) := by
  decide

/-- C5 amended: after a failed flush the whole populated batch carries
forward unmodified; envelope-derived series are untouched by the next
flush's internal-metric injection, so their previously undelivered
points (plus any points newly accumulated by `Consume` in the interval)
all appear in the next rendered batch; the internal counter series,
however, are overwritten with fresh single points at the next flush. -/
theorem failed_flush_carry_forward (c : Client) (now now₂ : ℤ) (r : HttpResult)
    (hfail : ((c.postMetrics now r).2).isSome = true) :
    ((c.postMetrics now r).1).metricPoints = (c.populateInternalMetrics now).metricPoints ∧
    (∀ k, (k.eventType = .valueMetric ∨ k.eventType = .counterEvent) →
      batchGet (((c.postMetrics now r).1).populateInternalMetrics now₂).metricPoints k =
        batchGet ((c.postMetrics now r).1).metricPoints k) ∧
    (∀ digest e, (e.eventType = .valueMetric ∨ e.eventType = .counterEvent) →
      batchGet ((((c.postMetrics now r).1).addMetric digest e).populateInternalMetrics
          now₂).metricPoints (mkMetricKey digest e) =
        some ⟨sortTags (parseTags e),
          ((batchGet ((c.postMetrics now r).1).metricPoints
              (mkMetricKey digest e)).getD ⟨[], []⟩).points ++
            [⟨e.timestamp.tdiv 1000000000, getValue e⟩]⟩) ∧
    batchGet (((c.postMetrics now r).1).populateInternalMetrics now₂).metricPoints
        (internalKey ((c.postMetrics now r).1) "totalMessagesReceived") =
      some ⟨internalTags ((c.postMetrics now r).1),
        [⟨now₂, (((c.postMetrics now r).1).totalMessagesReceived : ℚ)⟩]⟩ := by
  refine ⟨?_, fun k hk => ?_, fun digest e he => ?_, populate_get_msgReceived _ _⟩
  · cases r with
    | transportError m => rfl
    | response code status body =>
      by_cases hc : code ≥ 300 ∨ code < 200
      · simp only [Client.postMetrics]
        rw [if_pos hc]
      · exfalso
        simp only [Client.postMetrics] at hfail
        rw [if_neg hc] at hfail
        simp at hfail
  · refine populate_get_eventType_ne _ _ ?_
    rcases hk with h | h <;> rw [h] <;> simp
  · rw [populate_get_eventType_ne]
    · exact addMetric_get_same digest _ e he
    · show e.eventType ≠ .unset
      rcases he with h | h <;> rw [h] <;> simp

/-- Witness for `failed_flush_carry_forward`: the concrete client at a
400 failure. -/
theorem failed_flush_carry_forward_witness :
    ((clientW.postMetrics 0 (.response 400 "400 Bad Request" "oops")).1).metricPoints =
      (clientW.populateInternalMetrics 0).metricPoints ∧
    (∀ k, (k.eventType = .valueMetric ∨ k.eventType = .counterEvent) →
      batchGet (((clientW.postMetrics 0
          (.response 400 "400 Bad Request" "oops")).1).populateInternalMetrics 1).metricPoints
          k =
        batchGet ((clientW.postMetrics 0
          (.response 400 "400 Bad Request" "oops")).1).metricPoints k) ∧
    (∀ digest e, (e.eventType = .valueMetric ∨ e.eventType = .counterEvent) →
      batchGet ((((clientW.postMetrics 0
            (.response 400 "400 Bad Request" "oops")).1).addMetric digest
          e).populateInternalMetrics 1).metricPoints (mkMetricKey digest e) =
        some ⟨sortTags (parseTags e),
          ((batchGet ((clientW.postMetrics 0
              (.response 400 "400 Bad Request" "oops")).1).metricPoints
              (mkMetricKey digest e)).getD ⟨[], []⟩).points ++
            [⟨e.timestamp.tdiv 1000000000, getValue e⟩]⟩) ∧
    batchGet (((clientW.postMetrics 0
          (.response 400 "400 Bad Request" "oops")).1).populateInternalMetrics 1).metricPoints
        (internalKey ((clientW.postMetrics 0
          (.response 400 "400 Bad Request" "oops")).1) "totalMessagesReceived") =
      some ⟨internalTags ((clientW.postMetrics 0 (.response 400 "400 Bad Request" "oops")).1),
        [⟨1, (((clientW.postMetrics 0
          (.response 400 "400 Bad Request" "oops")).1).totalMessagesReceived : ℚ)⟩]⟩ :=
  failed_flush_carry_forward clientW 0 1 (.response 400 "400 Bad Request" "oops") (by decide)

end InfluxdbNozzle
